import Mathlib

/-
Verification development for the email-verifier service
(src/email_verifier.py).  The Python source is embedded shallowly:

* `datetime` values and the float `time.time()` durations are modelled as
  integer ticks;
* network interactions (DNS resolution, the SMTP dialogue) are modelled as
  explicit environments passed to the functions that perform them; an
  exception raised by a network call is an explicit error value of the
  environment;
* the sqlite table `verifications` (one row per email, `email` is the
  primary key) is modelled as a list of rows, and the read/write failure
  branches of its `try/except` blocks as explicit boolean flags;
* `smtp_verify` additionally returns the list of socket actions it
  performed (open, send, close), so that resource handling is visible.
-/

namespace EmailVerifier

/-- One answer record of `dns.resolver.resolve(domain, 'MX')`: a numeric
preference and an exchange hostname. -/
structure MxRecord where
  preference : Nat
  exchange : String
deriving DecidableEq

/-- The `VerificationResult` dataclass.  `timestamp` and
`verification_time` are integer ticks. -/
structure VerificationResult where
  email : String
  is_valid : Bool
  status_code : Option Int
  server_response : String
  mx_records : List String
  verification_time : Int
  timestamp : Int
  error_message : Option String
  cached : Bool
deriving DecidableEq

/-- One entry of the `sender_configs` list. -/
structure SenderConfig where
  email : String
  helo : String
deriving DecidableEq

/-- The literal `sender_configs` list built in `EmailVerifier.__init__`. -/
def sender_configs : List SenderConfig :=
  [⟨"validator@emailcheck.tech", "mail-validator-1.emailcheck.tech"⟩,
   ⟨"checker@emailcheck.tech", "mail-validator-2.emailcheck.tech"⟩,
   ⟨"verify@emailcheck.tech", "mail-validator-3.emailcheck.tech"⟩]

/-- `get_next_sender`: returns the identity at the cursor and advances the
cursor modulo the list length.  The Python code indexes the list directly
(an out-of-range cursor would raise); `getD` stands for that indexing, and
the range invariant is proved below. -/
def get_next_sender (configs : List SenderConfig) (current_sender : Nat) :
    SenderConfig × Nat :=
  (configs.getD current_sender ⟨"", ""⟩, (current_sender + 1) % configs.length)

/-- Cursor value after `k` calls to `get_next_sender`, starting at `init`. -/
def cursorIter (configs : List SenderConfig) (init : Nat) : Nat → Nat
  | 0 => init
  | k + 1 => (get_next_sender configs (cursorIter configs init k)).2

/-- The identity returned by call number `k` (0-based). -/
def senderAt (configs : List SenderConfig) (init k : Nat) : SenderConfig :=
  (get_next_sender configs (cursorIter configs init k)).1

/-- Character class `[a-zA-Z0-9._%+-]` of the local part. -/
def isLocalChar (c : Char) : Bool :=
  c.isAlpha || c.isDigit || c == '.' || c == '_' || c == '%' || c == '+' || c == '-'

/-- Character class `[a-zA-Z0-9.-]` of the domain part before the final
dot. -/
def isDomainChar (c : Char) : Bool :=
  c.isAlpha || c.isDigit || c == '.' || c == '-'

/-- The `[a-zA-Z0-9.-]+\.[a-zA-Z]\x7b2,\x7d$` part of the regex, checked on
the character list of the domain: the final dot is the last dot of the
string (the suffix after it must be all letters), at least two letters
follow it, and a nonempty run of domain characters precedes it. -/
def domainTailOk (d : List Char) : Bool :=
  let tld := d.reverse.takeWhile (fun c => c != '.')
  match d.reverse.dropWhile (fun c => c != '.') with
  | [] => false
  | _ :: pre =>
    !pre.isEmpty && pre.all isDomainChar && decide (2 ≤ tld.length) && tld.all Char.isAlpha

/-- The regex body `[a-zA-Z0-9._%+-]+@[a-zA-Z0-9.-]+\.[a-zA-Z]\x7b2,\x7d`
matched against a whole character list.  No character class of the regex
contains the at sign, so a match splits the string at its only at sign;
the split below is at the first at sign, and a second one in the tail
makes `domainTailOk` fail. -/
def emailCoreMatch (cs : List Char) : Bool :=
  let l := cs.takeWhile (fun c => c != '@')
  match cs.dropWhile (fun c => c != '@') with
  | [] => false
  | _ :: d => !l.isEmpty && l.all isLocalChar && domainTailOk d

/-- `is_valid_email_format`: `re.match` of the anchored pattern.  The
Python `$` anchor (without `re.MULTILINE`) matches at the end of the
string or just before one newline that ends the string, and no character
class of the pattern contains a newline, so the pattern accepts the core
shape optionally followed by exactly one final newline. -/
def is_valid_email_format (email : String) : Bool :=
  emailCoreMatch email.toList ||
    (match email.toList.getLast? with
     | some c => c == '\n' && emailCoreMatch email.toList.dropLast
     | none => false)

/-- Character class letters/digits/hyphen of a domain label, as claim C4
words it. -/
def isLabelChar (c : Char) : Bool :=
  c.isAlpha || c.isDigit || c == '-'

/-- The well-formedness shape exactly as the specification words it
(spec-side definition, to be compared against `is_valid_email_format`):
local part of one or more characters from the known-safe set, then the
domain as one or more dot-separated nonempty labels of
letters/digits/hyphen whose final label has at least two letters. -/
def specWellFormed (email : String) : Bool :=
  match email.toList.splitOn '@' with
  | [l, d] =>
    let labels := d.splitOn '.'
    !l.isEmpty && l.all isLocalChar &&
    labels.all (fun lab => !lab.isEmpty && lab.all isLabelChar) &&
    (match labels.getLast? with
     | some last => decide (2 ≤ last.length) && last.all Char.isAlpha
     | none => false)
  | _ => false

/-- Python `str.strip()`: drop whitespace from both ends. -/
def pyStrip (s : String) : String :=
  ⟨((s.toList.dropWhile Char.isWhitespace).reverse.dropWhile Char.isWhitespace).reverse⟩

/-- Python slice `s[:n]`. -/
def pyTake (n : Nat) (s : String) : String :=
  ⟨s.toList.take n⟩

/-- Python `str.rstrip('.')`: drop dots from the right end. -/
def rstripDots (s : String) : String :=
  ⟨(s.toList.reverse.dropWhile (fun c => c == '.')).reverse⟩

/-- Last character is a dot. -/
def endsWithDot (s : String) : Bool :=
  match s.toList.getLast? with
  | some c => c == '.'
  | none => false

/-- Tail of a Python decimal-digit run: digits, with single underscores
allowed between digits. -/
def pyDigitsTail : List Char → Bool
  | [] => true
  | ['_'] => false
  | '_' :: c :: rest => c.isDigit && pyDigitsTail rest
  | c :: rest => c.isDigit && pyDigitsTail rest

/-- A valid Python decimal-digit run: nonempty, starts with a digit. -/
def pyDigitsOk : List Char → Bool
  | [] => false
  | c :: rest => c.isDigit && pyDigitsTail rest

/-- Numeric value of a digit run, ignoring underscores. -/
def pyDigitsVal : List Char → Nat → Nat
  | [], acc => acc
  | c :: rest, acc =>
    if c == '_' then pyDigitsVal rest acc
    else pyDigitsVal rest (acc * 10 + (c.toNat - '0'.toNat))

/-- Model of Python `int(s)` on a decimal string: optional surrounding
whitespace, optional sign, then digits with single underscores allowed
between digits; `none` where `int` raises `ValueError`. -/
def pyInt (s : String) : Option Int :=
  match (pyStrip s).toList with
  | '+' :: rest =>
    if pyDigitsOk rest then some (Int.ofNat (pyDigitsVal rest 0)) else none
  | '-' :: rest =>
    if pyDigitsOk rest then some (-(Int.ofNat (pyDigitsVal rest 0))) else none
  | rest =>
    if pyDigitsOk rest then some (Int.ofNat (pyDigitsVal rest 0)) else none

/-- Python `bytes.startswith`: the first string is a prefix of the
second. -/
def pyStartsWith (pre s : String) : Bool :=
  pre.toList.isPrefixOf s.toList

/-- Outcome of one awaited network step: a value, an
`asyncio.TimeoutError`, or any other exception carrying its text. -/
inductive NetResult (α : Type) where
  | ok (val : α)
  | timeout
  | exc (msg : String)
deriving DecidableEq

/-- The behaviour of the remote side during one probe: the outcome of the
connection attempt and of each of the four reply reads.  A failure of one
of the intermediate `write`/`drain` calls surfaces at the following read
and is modelled through that read. -/
structure ServerBehavior where
  connect : NetResult Unit
  welcome : NetResult String
  ehloReply : NetResult String
  mailReply : NetResult String
  rcptReply : NetResult String
deriving DecidableEq

/-- A socket action performed by `smtp_verify`. -/
inductive SmtpAction where
  | connOpened
  | sent (line : String)
  | closed
deriving DecidableEq

/-- `smtp_verify` for a fixed sender identity (the caller threads the
cursor through `get_next_sender`).  Returns the
`(is_valid, status_code, response)` triple together with the trace of
socket actions performed.  The two `except` clauses map a timeout to
`(False, 0, "连接超时")` and any other exception to `(False, 0, str(e))`;
a greeting that does not start with `220` raises inside the `try` and is
caught by the generic clause.  `writer.close()` is reached only on the
fully successful path. -/
def smtp_verify (sender : SenderConfig) (email : String) (server : ServerBehavior) :
    (Bool × Int × String) × List SmtpAction :=
  match server.connect with
  | .timeout => ((false, 0, "连接超时"), [])
  | .exc e => ((false, 0, e), [])
  | .ok _ =>
    match server.welcome with
    | .timeout => ((false, 0, "连接超时"), [.connOpened])
    | .exc e => ((false, 0, e), [.connOpened])
    | .ok welcome =>
      if !(pyStartsWith "220" welcome) then
        ((false, 0, "SMTP连接失败"), [.connOpened])
      else
        let helo_cmd := "EHLO " ++ sender.helo ++ "\r\n"
        match server.ehloReply with
        | .timeout => ((false, 0, "连接超时"), [.connOpened, .sent helo_cmd])
        | .exc e => ((false, 0, e), [.connOpened, .sent helo_cmd])
        | .ok _ =>
          let mail_cmd := "MAIL FROM:<" ++ sender.email ++ ">\r\n"
          match server.mailReply with
          | .timeout =>
            ((false, 0, "连接超时"), [.connOpened, .sent helo_cmd, .sent mail_cmd])
          | .exc e =>
            ((false, 0, e), [.connOpened, .sent helo_cmd, .sent mail_cmd])
          | .ok _ =>
            let rcpt_cmd := "RCPT TO:<" ++ email ++ ">\r\n"
            match server.rcptReply with
            | .timeout =>
              ((false, 0, "连接超时"),
               [.connOpened, .sent helo_cmd, .sent mail_cmd, .sent rcpt_cmd])
            | .exc e =>
              ((false, 0, e),
               [.connOpened, .sent helo_cmd, .sent mail_cmd, .sent rcpt_cmd])
            | .ok rcpt_response =>
              let rcpt_str := pyStrip rcpt_response
              let status_code := (pyInt (pyTake 3 rcpt_str)).getD 500
              let is_valid := status_code == 250 || status_code == 251
              ((is_valid, status_code, rcpt_str),
               [.connOpened, .sent helo_cmd, .sent mail_cmd, .sent rcpt_cmd,
                .sent "QUIT\r\n", .closed])

/-- Stable insertion into a preference-sorted list: the new record goes
before the first strictly and non-strictly later record only when its key
is not larger, matching the stable Python `sorted`. -/
def insertByPreference (r : MxRecord) : List MxRecord → List MxRecord
  | [] => [r]
  | x :: xs =>
    if r.preference ≤ x.preference then r :: x :: xs else x :: insertByPreference r xs

/-- Stable sort by `preference`:
`sorted(mx_records, key=lambda x: x.preference)`. -/
def sortByPreference : List MxRecord → List MxRecord
  | [] => []
  | x :: xs => insertByPreference x (sortByPreference xs)

/-- `get_mx_records`: the resolver environment either raises (`.error`,
covering NXDOMAIN, timeout, no answer, malformed response — the
`try/except` returns `[]` there) or answers with a record list, which is
sorted by preference and mapped to exchange hostnames with trailing dots
stripped. -/
def get_mx_records (resolve : String → Except String (List MxRecord)) (domain : String) :
    List String :=
  match resolve domain with
  | .error _ => []
  | .ok mx_records => (sortByPreference mx_records).map (fun mx => rstripDots mx.exchange)

/-- One row of the `verifications` table (the persisted columns; `cached`
is never persisted). -/
structure StoredRow where
  email : String
  is_valid : Bool
  status_code : Option Int
  server_response : String
  mx_records : List String
  verification_time : Int
  timestamp : Int
  error_message : Option String
deriving DecidableEq

/-- Row read back into a `VerificationResult`, with `cached=True` as in
`get_cached_result`. -/
def rowToResult (row : StoredRow) : VerificationResult :=
  { email := row.email, is_valid := row.is_valid, status_code := row.status_code,
    server_response := row.server_response, mx_records := row.mx_records,
    verification_time := row.verification_time, timestamp := row.timestamp,
    error_message := row.error_message, cached := true }

/-- The columns `cache_result` persists for a result. -/
def resultToRow (r : VerificationResult) : StoredRow :=
  { email := r.email, is_valid := r.is_valid, status_code := r.status_code,
    server_response := r.server_response, mx_records := r.mx_records,
    verification_time := r.verification_time, timestamp := r.timestamp,
    error_message := r.error_message }

/-- `get_cached_result`: on a read failure the `except` clause returns
`None`; otherwise the stored row for the email is returned when its
timestamp is strictly later than `now - cache_duration`
(`timestamp > cutoff_time` in the SQL query). -/
def get_cached_result (read_fails : Bool) (store : List StoredRow) (now ttl : Int)
    (email : String) : Option VerificationResult :=
  if read_fails then none
  else
    let cutoff_time := now - ttl
    match store.find? (fun row => row.email == email && cutoff_time < row.timestamp) with
    | some row => some (rowToResult row)
    | none => none

/-- `INSERT OR REPLACE` into a table whose primary key is `email`: replace
the existing row for the key, or append a new row. -/
def upsertRow (store : List StoredRow) (row : StoredRow) : List StoredRow :=
  if store.any (fun x => x.email == row.email) then
    store.map (fun x => if x.email == row.email then row else x)
  else store ++ [row]

/-- `cache_result`: a write failure is swallowed by the `except` clause and
leaves the store unchanged. -/
def cache_result (write_fails : Bool) (store : List StoredRow) (r : VerificationResult) :
    List StoredRow :=
  if write_fails then store else upsertRow store (resultToRow r)

/-- `email.split('@')[1].lower()`.  The Python code only evaluates this
after the format check guarantees an at sign is present; `getD` stands for
that indexing. -/
def lowerDomain (email : String) : String :=
  ⟨((email.toList.splitOn '@').getD 1 []).map Char.toLower⟩

/-- The environment of one `verify_email` call: the clock, the cache TTL,
the storage failure flags, the DNS resolver, the SMTP behaviour of each
host, and the sender-pool cursor. -/
structure Env where
  now : Int
  ttl : Int
  elapsed : Int
  read_fails : Bool
  write_fails : Bool
  resolve : String → Except String (List MxRecord)
  smtp : String → ServerBehavior
  sender_cursor : Nat

/-- Observable side effects of one `verify_email` call: the domains sent to
DNS resolution, the hosts probed over SMTP, and the rows handed to
`cache_result`. -/
structure Effects where
  dns_queries : List String
  smtp_probes : List String
  cache_writes : List StoredRow
deriving DecidableEq

/-- `verify_email`: cache lookup, format check, MX resolution, SMTP probe,
cache write, returning the result, the effects performed, and the new
store.  The `try/except` around the `smtp_verify` call is dead (the probe
catches every exception itself) and is not modelled. -/
def verify_email (env : Env) (store : List StoredRow) (email : String) :
    VerificationResult × Effects × List StoredRow :=
  match get_cached_result env.read_fails store env.now env.ttl email with
  | some cached_result => (cached_result, ⟨[], [], []⟩, store)
  | none =>
    if !(is_valid_email_format email) then
      let r : VerificationResult :=
        { email := email, is_valid := false, status_code := none, server_response := "",
          mx_records := [], verification_time := env.elapsed, timestamp := env.now,
          error_message := some "邮箱格式无效", cached := false }
      (r, ⟨[], [], [resultToRow r]⟩, cache_result env.write_fails store r)
    else
      let domain := lowerDomain email
      match get_mx_records env.resolve domain with
      | [] =>
        let r : VerificationResult :=
          { email := email, is_valid := false, status_code := none,
            server_response := "未找到MX记录", mx_records := [],
            verification_time := env.elapsed, timestamp := env.now,
            error_message := some "域名没有MX记录", cached := false }
        (r, ⟨[domain], [], [resultToRow r]⟩, cache_result env.write_fails store r)
      | primary_mx :: rest =>
        let sender := (get_next_sender sender_configs env.sender_cursor).1
        let probe := (smtp_verify sender email (env.smtp primary_mx)).1
        let r : VerificationResult :=
          { email := email, is_valid := probe.1, status_code := some probe.2.1,
            server_response := probe.2.2, mx_records := primary_mx :: rest,
            verification_time := env.elapsed, timestamp := env.now,
            error_message := none, cached := false }
        (r, ⟨[domain], [primary_mx], [resultToRow r]⟩, cache_result env.write_fails store r)

/-- A fully successful probe dialogue, used for concrete instantiations. -/
def demoServer : ServerBehavior :=
  ⟨.ok (), .ok "220 mx.example.com ESMTP", .ok "250-mx.example.com",
   .ok "250 2.1.0 OK", .ok "250 2.1.5 Recipient OK"⟩

/-- A dialogue whose greeting read times out after a successful connect. -/
def timeoutServer : ServerBehavior :=
  ⟨.ok (), .timeout, .ok "", .ok "", .ok ""⟩

/-- The first configured sender identity. -/
def demoSender : SenderConfig :=
  ⟨"validator@emailcheck.tech", "mail-validator-1.emailcheck.tech"⟩

/-- An environment with a working cache whose resolver always raises and
whose servers time out, used for concrete instantiations. -/
def noNetEnv : Env :=
  { now := 0, ttl := 24, elapsed := 0, read_fails := false, write_fails := false,
    resolve := fun _ => .error "NXDOMAIN", smtp := fun _ => timeoutServer,
    sender_cursor := 0 }

/-- A resolver knowing one domain with two MX records (unsorted, with
trailing root dots), used for concrete instantiations. -/
def demoResolve : String → Except String (List MxRecord) :=
  fun d =>
    if d = "example.com"
    then .ok [⟨20, "mx2.example.com."⟩, ⟨10, "mx1.example.com."⟩]
    else .error "NXDOMAIN"

/-- A stored cache row for a previously verified address. -/
def demoRow : StoredRow :=
  { email := "user@example.com", is_valid := true, status_code := some 250,
    server_response := "250 2.1.5 Recipient OK", mx_records := ["mx.example.com"],
    verification_time := 1, timestamp := 100, error_message := none }

/-- An environment whose clock is 10 ticks past the stored row, inside the
24-tick TTL. -/
def demoCacheEnv : Env :=
  { noNetEnv with now := 110, ttl := 24 }

/- ------------------------------------------------------------------ -/
/- Helper lemmas                                                      -/
/- ------------------------------------------------------------------ -/

theorem toList_mk (l : List Char) : (String.mk l).toList = l := rfl

theorem not_isEmpty_ne {α : Type} (l : List α) (h : (!l.isEmpty) = true) : l ≠ [] := by
  cases l with
  | nil => simp at h
  | cons a as => simp

theorem ne_not_isEmpty {α : Type} (l : List α) (h : l ≠ []) : (!l.isEmpty) = true := by
  cases l with
  | nil => exact absurd rfl h
  | cons a as => rfl

theorem isLocalChar_ne_at (c : Char) (h : isLocalChar c = true) : (c != '@') = true := by
  rw [bne_iff_ne]
  intro heq
  subst heq
  exact absurd h (by decide)

theorem isAlpha_ne_dot (c : Char) (h : c.isAlpha = true) : (c != '.') = true := by
  rw [bne_iff_ne]
  intro heq
  subst heq
  exact absurd h (by decide)

theorem dropWhile_head_false {α : Type} (p : α → Bool) (l : List α) (x : α) (xs : List α)
    (h : l.dropWhile p = x :: xs) : p x = false := by
  induction l with
  | nil => simp [List.dropWhile] at h
  | cons a as ih =>
    rw [List.dropWhile_cons] at h
    by_cases hpa : p a = true
    · rw [if_pos hpa] at h
      exact ih h
    · rw [if_neg hpa] at h
      cases h
      exact Bool.not_eq_true _ ▸ Bool.of_not_eq_true hpa

theorem dropWhile_decomp {α : Type} (p : α → Bool) (l : List α) (x : α) (xs : List α)
    (h : l.dropWhile p = x :: xs) : l = l.takeWhile p ++ x :: xs := by
  conv_lhs => rw [← List.takeWhile_append_dropWhile p l]
  rw [h]

theorem takeWhile_of_sat_append {α : Type} (p : α → Bool) (l : List α) (a : α) (rest : List α)
    (hl : ∀ y ∈ l, p y = true) (ha : p a = false) :
    (l ++ a :: rest).takeWhile p = l ∧ (l ++ a :: rest).dropWhile p = a :: rest := by
  induction l with
  | nil => simp [List.takeWhile_cons, List.dropWhile_cons, ha]
  | cons b bs ih =>
    have hb : p b = true := hl b (by simp)
    have ih2 := ih (fun y hy => hl y (by simp [hy]))
    simp only [List.cons_append, List.takeWhile_cons, List.dropWhile_cons, hb, if_pos,
      ih2.1, ih2.2, and_self, if_true]

/- ------------------------------------------------------------------ -/
/- Claim C1                                                           -/
/- ------------------------------------------------------------------ -/

/-- Claim C1: for every probe exchange that completes the protocol
sequence, the verdict has `is_valid = true` exactly when the status code
parsed (Python `int`) from the first three characters of the stripped
RCPT TO reply is 250 or 251; an unparseable prefix becomes the generic
failure code 500, which is neither, so the verdict is negative. -/
theorem smtp_verify_verdict_policy (sender : SenderConfig) (email : String)
    (server : ServerBehavior) (welcome ehlo mail rcpt : String)
    (hconn : server.connect = .ok ())
    (hwel : server.welcome = .ok welcome)
    (h220 : pyStartsWith "220" welcome = true)
    (hehlo : server.ehloReply = .ok ehlo)
    (hmail : server.mailReply = .ok mail)
    (hrcpt : server.rcptReply = .ok rcpt) :
    ((smtp_verify sender email server).1.2.1
        = (pyInt (pyTake 3 (pyStrip rcpt))).getD 500)
    ∧ ((smtp_verify sender email server).1.1 = true ↔
        ((smtp_verify sender email server).1.2.1 = 250
          ∨ (smtp_verify sender email server).1.2.1 = 251))
    ∧ (pyInt (pyTake 3 (pyStrip rcpt)) = none →
        (smtp_verify sender email server).1.1 = false
          ∧ (smtp_verify sender email server).1.2.1 ≠ 250
          ∧ (smtp_verify sender email server).1.2.1 ≠ 251) := by
  have hres : (smtp_verify sender email server).1
      = ((((pyInt (pyTake 3 (pyStrip rcpt))).getD 500 == 250)
            || ((pyInt (pyTake 3 (pyStrip rcpt))).getD 500 == 251),
          (pyInt (pyTake 3 (pyStrip rcpt))).getD 500, pyStrip rcpt)) := by
    simp only [smtp_verify, hconn, hwel, hehlo, hmail, hrcpt, h220, Bool.not_true,
      Bool.false_eq_true, if_false]
  rw [hres]
  refine ⟨rfl, ?_, ?_⟩
  · simp
  · intro hnone
    rw [hnone]
    simp

/-- Witness for C1 at a concrete accepting dialogue. -/
theorem smtp_verify_verdict_policy_witness :
    ((smtp_verify demoSender "user@example.com" demoServer).1.2.1
        = (pyInt (pyTake 3 (pyStrip "250 2.1.5 Recipient OK"))).getD 500)
    ∧ ((smtp_verify demoSender "user@example.com" demoServer).1.1 = true ↔
        ((smtp_verify demoSender "user@example.com" demoServer).1.2.1 = 250
          ∨ (smtp_verify demoSender "user@example.com" demoServer).1.2.1 = 251))
    ∧ (pyInt (pyTake 3 (pyStrip "250 2.1.5 Recipient OK")) = none →
        (smtp_verify demoSender "user@example.com" demoServer).1.1 = false
          ∧ (smtp_verify demoSender "user@example.com" demoServer).1.2.1 ≠ 250
          ∧ (smtp_verify demoSender "user@example.com" demoServer).1.2.1 ≠ 251) :=
  smtp_verify_verdict_policy demoSender "user@example.com" demoServer
    "220 mx.example.com ESMTP" "250-mx.example.com" "250 2.1.0 OK"
    "250 2.1.5 Recipient OK" rfl rfl (by decide) rfl rfl rfl

/- ------------------------------------------------------------------ -/
/- Claim C2                                                           -/
/- ------------------------------------------------------------------ -/

/-- Claim C2 (code bug): when the greeting read times out after a
successful connect, the probe does return `(False, 0, "连接超时")` and
propagates nothing, but the connection it opened is never closed: the
socket trace records the open and no close, because `writer.close()` is
only reached on the fully successful path. -/
theorem smtp_verify_timeout_leaves_connection_open :
    (smtp_verify demoSender "user@example.com" timeoutServer).1 = (false, 0, "连接超时")
    ∧ (smtp_verify demoSender "user@example.com" timeoutServer).2 = [SmtpAction.connOpened]
    ∧ SmtpAction.closed ∉ (smtp_verify demoSender "user@example.com" timeoutServer).2 := by
  refine ⟨rfl, rfl, ?_⟩
  decide

/- ------------------------------------------------------------------ -/
/- Claim C3                                                           -/
/- ------------------------------------------------------------------ -/

/-- Counterexample to C3 as stated: on a malformed input that misses the
cache, the outcome is negative but its error message is the Chinese
string of the source, not the string `"invalid email format"` asserted by
the claim. -/
theorem verify_email_format_message_counterexample :
    is_valid_email_format "not-an-email" = false
    ∧ get_cached_result noNetEnv.read_fails [] noNetEnv.now noNetEnv.ttl "not-an-email" = none
    ∧ (verify_email noNetEnv [] "not-an-email").1.is_valid = false
    ∧ (verify_email noNetEnv [] "not-an-email").1.error_message ≠ some "invalid email format" := by
  decide

/-- Claim C3 as amended: for every input failing the format check with no
unexpired cache entry, `verify_email` returns a negative outcome whose
error message is the fixed diagnostic `"邮箱格式无效"` (the format-failure
string of the source), writes exactly that outcome to the cache, and
performs no DNS query and no SMTP connection. -/
theorem verify_email_invalid_format (env : Env) (store : List StoredRow) (email : String)
    (hmiss : get_cached_result env.read_fails store env.now env.ttl email = none)
    (hfmt : is_valid_email_format email = false) :
    ((verify_email env store email).1.is_valid = false)
    ∧ ((verify_email env store email).1.error_message = some "邮箱格式无效")
    ∧ ((verify_email env store email).2.1.dns_queries = [])
    ∧ ((verify_email env store email).2.1.smtp_probes = [])
    ∧ ((verify_email env store email).2.1.cache_writes
        = [resultToRow (verify_email env store email).1])
    ∧ ((verify_email env store email).2.2
        = cache_result env.write_fails store (verify_email env store email).1) := by
  simp [verify_email, hmiss, hfmt]

/-- Witness for the amended C3 at a concrete malformed input. -/
theorem verify_email_invalid_format_witness :
    ((verify_email noNetEnv [] "not-an-email").1.is_valid = false)
    ∧ ((verify_email noNetEnv [] "not-an-email").1.error_message = some "邮箱格式无效")
    ∧ ((verify_email noNetEnv [] "not-an-email").2.1.dns_queries = [])
    ∧ ((verify_email noNetEnv [] "not-an-email").2.1.smtp_probes = [])
    ∧ ((verify_email noNetEnv [] "not-an-email").2.1.cache_writes
        = [resultToRow (verify_email noNetEnv [] "not-an-email").1])
    ∧ ((verify_email noNetEnv [] "not-an-email").2.2
        = cache_result noNetEnv.write_fails [] (verify_email noNetEnv [] "not-an-email").1) :=
  verify_email_invalid_format noNetEnv [] "not-an-email" (by decide) (by decide)

/- ------------------------------------------------------------------ -/
/- Claim C4                                                           -/
/- ------------------------------------------------------------------ -/

/-- Counterexample to C4 as stated: the regex accepts `"a@b..cd"`, whose
domain is not a sequence of dot-separated nonempty labels (it has an empty
label between the two consecutive dots), so the claimed shape rejects
it. -/
theorem email_format_shape_counterexample :
    is_valid_email_format "a@b..cd" = true ∧ specWellFormed "a@b..cd" = false := by
  decide

theorem getLast?_decomp {α : Type} (l : List α) (a : α) (h : l.getLast? = some a) :
    l = l.dropLast ++ [a] := by
  induction l with
  | nil => simp at h
  | cons x xs ih =>
    cases xs with
    | nil =>
      have hx : x = a := by simpa using h
      simp [hx]
    | cons y ys =>
      rw [List.getLast?_cons_cons] at h
      simp only [List.dropLast_cons₂, List.cons_append]
      exact congrArg (List.cons x) (ih h)

/-- The regex body accepts exactly the lists `l ++ '@' :: p ++ '.' :: t`
with `l` a nonempty run of local characters, `p` a nonempty run of
domain characters, and `t` a final label of at least two letters. -/
theorem emailCoreMatch_characterization (cs : List Char) :
    emailCoreMatch cs = true ↔
      ∃ l p t : List Char,
        cs = l ++ '@' :: (p ++ '.' :: t)
          ∧ l ≠ [] ∧ (∀ c ∈ l, isLocalChar c = true)
          ∧ p ≠ [] ∧ (∀ c ∈ p, isDomainChar c = true)
          ∧ 2 ≤ t.length ∧ (∀ c ∈ t, c.isAlpha = true) := by
  constructor
  · intro h
    simp only [emailCoreMatch] at h
    cases hdrop : cs.dropWhile (fun c => c != '@') with
    | nil => rw [hdrop] at h; exact absurd h (by simp)
    | cons x d =>
      rw [hdrop] at h
      simp only [Bool.and_eq_true] at h
      obtain ⟨⟨h1, h2⟩, h3⟩ := h
      have hx : x = '@' := by
        have hf := dropWhile_head_false _ _ _ _ hdrop
        simpa [bne_eq_false_iff_eq] using hf
      subst hx
      have hdecomp := dropWhile_decomp _ _ _ _ hdrop
      simp only [domainTailOk] at h3
      cases hd : d.reverse.dropWhile (fun c => c != '.') with
      | nil => rw [hd] at h3; exact absurd h3 (by simp)
      | cons y pre =>
        rw [hd] at h3
        simp only [Bool.and_eq_true, decide_eq_true_eq] at h3
        obtain ⟨⟨⟨hp1, hp2⟩, hlen⟩, htall⟩ := h3
        have hy : y = '.' := by
          have hf := dropWhile_head_false _ _ _ _ hd
          simpa [bne_eq_false_iff_eq] using hf
        subst hy
        have hrev := dropWhile_decomp _ _ _ _ hd
        have hd2 : d = pre.reverse
            ++ '.' :: (d.reverse.takeWhile (fun c => c != '.')).reverse := by
          conv_lhs => rw [← List.reverse_reverse d, hrev]
          simp [List.reverse_append]
        rw [hd2] at hdecomp
        refine ⟨_, _, _, hdecomp, not_isEmpty_ne _ h1, List.all_eq_true.mp h2,
          ?_, ?_, ?_, ?_⟩
        · intro hpe
          exact not_isEmpty_ne _ hp1 (List.reverse_eq_nil_iff.mp hpe)
        · intro c hc
          exact List.all_eq_true.mp hp2 c (List.mem_reverse.mp hc)
        · rw [List.length_reverse]
          exact hlen
        · intro c hc
          exact List.all_eq_true.mp htall c (List.mem_reverse.mp hc)
  · rintro ⟨l, p, t, heq, hlne, hlall, hpne, hpall, htlen, htall⟩
    have hsplit := takeWhile_of_sat_append (fun c => c != '@') l '@' (p ++ '.' :: t)
      (fun y hy => isLocalChar_ne_at y (hlall y hy)) (by simp)
    simp only [emailCoreMatch, heq, hsplit.1, hsplit.2, Bool.and_eq_true]
    refine ⟨⟨ne_not_isEmpty _ hlne, List.all_eq_true.mpr hlall⟩, ?_⟩
    have hrev : (p ++ '.' :: t).reverse = t.reverse ++ '.' :: p.reverse := by
      simp [List.reverse_append]
    have hsplit2 := takeWhile_of_sat_append (fun c => c != '.') t.reverse '.' p.reverse
      (fun y hy => isAlpha_ne_dot y (htall y (List.mem_reverse.mp hy))) (by simp)
    simp only [domainTailOk, hrev, hsplit2.1, hsplit2.2, Bool.and_eq_true,
      decide_eq_true_eq]
    refine ⟨⟨⟨?_, ?_⟩, ?_⟩, ?_⟩
    · refine ne_not_isEmpty _ ?_
      intro hpe
      exact hpne (List.reverse_eq_nil_iff.mp hpe)
    · exact List.all_eq_true.mpr (fun c hc => hpall c (List.mem_reverse.mp hc))
    · rw [List.length_reverse]
      exact htlen
    · exact List.all_eq_true.mpr (fun c hc => htall c (List.mem_reverse.mp hc))

/-- Claim C4 as amended: `is_valid_email_format` accepts exactly the
strings `l ++ "@" ++ p ++ "." ++ t`, optionally followed by one final
newline (the Python `$` anchor also matches just before a single trailing
newline), with `l` a nonempty run of characters from the local set, `p` a
nonempty run of characters from letters/digits/dot/hyphen (so labels
inside `p` may be empty or hyphen-only), and `t` a final label of at
least two letters. -/
theorem is_valid_email_format_characterization (email : String) :
    is_valid_email_format email = true ↔
      ∃ l p t : List Char,
        (email.toList = l ++ '@' :: (p ++ '.' :: t)
          ∨ email.toList = (l ++ '@' :: (p ++ '.' :: t)) ++ ['\n'])
          ∧ l ≠ [] ∧ (∀ c ∈ l, isLocalChar c = true)
          ∧ p ≠ [] ∧ (∀ c ∈ p, isDomainChar c = true)
          ∧ 2 ≤ t.length ∧ (∀ c ∈ t, c.isAlpha = true) := by
  simp only [is_valid_email_format, Bool.or_eq_true]
  constructor
  · rintro (hcore | htail)
    · obtain ⟨l, p, t, heq, rest⟩ := (emailCoreMatch_characterization email.toList).mp hcore
      exact ⟨l, p, t, Or.inl heq, rest⟩
    · cases hL : email.toList.getLast? with
      | none => rw [hL] at htail; exact absurd htail (by simp)
      | some c =>
        rw [hL] at htail
        simp only [Bool.and_eq_true, beq_iff_eq] at htail
        obtain ⟨hc, hcore⟩ := htail
        subst hc
        obtain ⟨l, p, t, heq, rest⟩ := (emailCoreMatch_characterization _).mp hcore
        refine ⟨l, p, t, Or.inr ?_, rest⟩
        rw [← heq]
        exact getLast?_decomp _ _ hL
  · rintro ⟨l, p, t, heq | heq, rest⟩
    · exact Or.inl ((emailCoreMatch_characterization email.toList).mpr ⟨l, p, t, heq, rest⟩)
    · refine Or.inr ?_
      rw [heq]
      simp only [List.getLast?_concat, List.dropLast_concat, beq_self_eq_true,
        Bool.true_and]
      exact (emailCoreMatch_characterization _).mpr ⟨l, p, t, rfl, rest⟩

/- ------------------------------------------------------------------ -/
/- Claim C5                                                           -/
/- ------------------------------------------------------------------ -/

/-- Counterexample to C5 as stated: on a well-formed email whose domain
has no MX records and which misses the cache, the outcome is negative
with empty `mx_records`, but its error message is the Chinese string of
the source, not the string `"no MX records"` asserted by the claim. -/
theorem verify_email_no_mx_message_counterexample :
    is_valid_email_format "user@nomx.example" = true
    ∧ get_mx_records noNetEnv.resolve (lowerDomain "user@nomx.example") = []
    ∧ (verify_email noNetEnv [] "user@nomx.example").1.is_valid = false
    ∧ (verify_email noNetEnv [] "user@nomx.example").1.mx_records = []
    ∧ (verify_email noNetEnv [] "user@nomx.example").1.error_message ≠ some "no MX records" := by
  decide

/-- Claim C5 as amended: for every well-formed email whose lower-cased
domain resolves to no MX records, with no unexpired cache entry,
`verify_email` returns a negative outcome with empty `mx_records` and the
fixed diagnostic `"域名没有MX记录"` (the no-MX string of the source),
queries DNS exactly for the lower-cased domain, writes the outcome to the
cache, and opens no SMTP connection. -/
theorem verify_email_no_mx (env : Env) (store : List StoredRow) (email : String)
    (hmiss : get_cached_result env.read_fails store env.now env.ttl email = none)
    (hfmt : is_valid_email_format email = true)
    (hmx : get_mx_records env.resolve (lowerDomain email) = []) :
    ((verify_email env store email).1.is_valid = false)
    ∧ ((verify_email env store email).1.mx_records = [])
    ∧ ((verify_email env store email).1.error_message = some "域名没有MX记录")
    ∧ ((verify_email env store email).2.1.dns_queries = [lowerDomain email])
    ∧ ((verify_email env store email).2.1.smtp_probes = [])
    ∧ ((verify_email env store email).2.1.cache_writes
        = [resultToRow (verify_email env store email).1])
    ∧ ((verify_email env store email).2.2
        = cache_result env.write_fails store (verify_email env store email).1) := by
  simp [verify_email, hmiss, hfmt, hmx]

/-- Witness for the amended C5 at a concrete domain without MX records. -/
theorem verify_email_no_mx_witness :
    ((verify_email noNetEnv [] "user@nomx.example").1.is_valid = false)
    ∧ ((verify_email noNetEnv [] "user@nomx.example").1.mx_records = [])
    ∧ ((verify_email noNetEnv [] "user@nomx.example").1.error_message = some "域名没有MX记录")
    ∧ ((verify_email noNetEnv [] "user@nomx.example").2.1.dns_queries
        = [lowerDomain "user@nomx.example"])
    ∧ ((verify_email noNetEnv [] "user@nomx.example").2.1.smtp_probes = [])
    ∧ ((verify_email noNetEnv [] "user@nomx.example").2.1.cache_writes
        = [resultToRow (verify_email noNetEnv [] "user@nomx.example").1])
    ∧ ((verify_email noNetEnv [] "user@nomx.example").2.2
        = cache_result noNetEnv.write_fails []
            (verify_email noNetEnv [] "user@nomx.example").1) :=
  verify_email_no_mx noNetEnv [] "user@nomx.example" (by decide) (by decide) (by decide)

/- ------------------------------------------------------------------ -/
/- Claim C6                                                           -/
/- ------------------------------------------------------------------ -/

theorem insertByPreference_perm (r : MxRecord) (l : List MxRecord) :
    List.Perm (insertByPreference r l) (r :: l) := by
  induction l with
  | nil => exact List.Perm.refl _
  | cons x xs ih =>
    simp only [insertByPreference]
    by_cases h : r.preference ≤ x.preference
    · rw [if_pos h]
    · rw [if_neg h]
      exact List.Perm.trans (List.Perm.cons x ih) (List.Perm.swap r x xs)

theorem sortByPreference_perm (l : List MxRecord) :
    List.Perm (sortByPreference l) l := by
  induction l with
  | nil => exact List.Perm.refl _
  | cons x xs ih =>
    exact List.Perm.trans (insertByPreference_perm x (sortByPreference xs))
      (List.Perm.cons x ih)

theorem insertByPreference_pairwise (r : MxRecord) (l : List MxRecord)
    (h : List.Pairwise (fun a b => a.preference ≤ b.preference) l) :
    List.Pairwise (fun a b => a.preference ≤ b.preference) (insertByPreference r l) := by
  induction l with
  | nil => simp [insertByPreference]
  | cons x xs ih =>
    rw [List.pairwise_cons] at h
    simp only [insertByPreference]
    by_cases hle : r.preference ≤ x.preference
    · rw [if_pos hle]
      refine List.pairwise_cons.mpr ⟨?_, List.pairwise_cons.mpr h⟩
      intro b hb
      rcases List.mem_cons.mp hb with rfl | hb2
      · exact hle
      · exact hle.trans (h.1 b hb2)
    · rw [if_neg hle]
      refine List.pairwise_cons.mpr ⟨?_, ih h.2⟩
      intro b hb
      have hmem : b ∈ r :: xs := (insertByPreference_perm r xs).mem_iff.mp hb
      rcases List.mem_cons.mp hmem with rfl | hb2
      · exact le_of_not_le hle
      · exact h.1 b hb2

theorem sortByPreference_pairwise (l : List MxRecord) :
    List.Pairwise (fun a b => a.preference ≤ b.preference) (sortByPreference l) := by
  induction l with
  | nil => simp [sortByPreference]
  | cons x xs ih => exact insertByPreference_pairwise x (sortByPreference xs) ih

theorem rstripDots_no_trailing (s : String) : endsWithDot (rstripDots s) = false := by
  simp only [rstripDots, endsWithDot, toList_mk, List.getLast?_reverse]
  cases hd : s.toList.reverse.dropWhile (fun c => c == '.') with
  | nil => rfl
  | cons x xs =>
    simp only [List.head?_cons]
    exact dropWhile_head_false (fun c => c == '.') _ _ _ hd

/-- Claim C6: on a resolver exception of any kind `get_mx_records` is `[]`
and raises nothing; on success it is the exchange hostnames of the answer
sorted ascending by preference value (a permutation of the answer,
pairwise sorted) with trailing root-label dots stripped, so no returned
hostname ends in a dot. -/
theorem get_mx_records_spec (resolve : String → Except String (List MxRecord))
    (domain : String) :
    (∀ e, resolve domain = Except.error e → get_mx_records resolve domain = [])
    ∧ (∀ recs, resolve domain = Except.ok recs →
        List.Perm (sortByPreference recs) recs
        ∧ List.Pairwise (fun a b => a.preference ≤ b.preference) (sortByPreference recs)
        ∧ get_mx_records resolve domain
            = (sortByPreference recs).map (fun mx => rstripDots mx.exchange))
    ∧ (∀ h, h ∈ get_mx_records resolve domain → endsWithDot h = false) := by
  refine ⟨?_, ?_, ?_⟩
  · intro e he
    simp [get_mx_records, he]
  · intro recs hr
    exact ⟨sortByPreference_perm recs, sortByPreference_pairwise recs,
      by simp [get_mx_records, hr]⟩
  · intro h hmem
    unfold get_mx_records at hmem
    cases hres : resolve domain with
    | error e => rw [hres] at hmem; simp at hmem
    | ok recs =>
      rw [hres] at hmem
      simp only [List.mem_map] at hmem
      obtain ⟨mx, _, hemx⟩ := hmem
      rw [← hemx]
      exact rstripDots_no_trailing _

/-- Witness for C6: the demo resolver answer is sorted, stripped, and the
unknown domain resolves to the empty list. -/
theorem get_mx_records_spec_witness :
    get_mx_records demoResolve "nxdomain.example" = []
    ∧ (List.Perm
        (sortByPreference [⟨20, "mx2.example.com."⟩, ⟨10, "mx1.example.com."⟩])
        [⟨20, "mx2.example.com."⟩, ⟨10, "mx1.example.com."⟩]
      ∧ List.Pairwise (fun a b => a.preference ≤ b.preference)
          (sortByPreference [⟨20, "mx2.example.com."⟩, ⟨10, "mx1.example.com."⟩])
      ∧ get_mx_records demoResolve "example.com"
          = (sortByPreference [⟨20, "mx2.example.com."⟩, ⟨10, "mx1.example.com."⟩]).map
              (fun mx => rstripDots mx.exchange))
    ∧ endsWithDot "mx1.example.com" = false :=
  ⟨(get_mx_records_spec demoResolve "nxdomain.example").1 "NXDOMAIN" rfl,
   (get_mx_records_spec demoResolve "example.com").2.1
      [⟨20, "mx2.example.com."⟩, ⟨10, "mx1.example.com."⟩] rfl,
   (get_mx_records_spec demoResolve "example.com").2.2 "mx1.example.com" (by decide)⟩

/- ------------------------------------------------------------------ -/
/- Claim C7                                                           -/
/- ------------------------------------------------------------------ -/

theorem cursorIter_mod (k : Nat) : cursorIter sender_configs 0 k = k % 3 := by
  induction k with
  | zero => rfl
  | succ n ih =>
    show (get_next_sender sender_configs (cursorIter sender_configs 0 n)).2 = (n + 1) % 3
    rw [ih]
    show (n % 3 + 1) % sender_configs.length = (n + 1) % 3
    have hl : sender_configs.length = 3 := rfl
    rw [hl]
    omega

/-- Claim C7: starting from the initial cursor 0, the first N calls of the
sender pool (N = 3, the configured pool size) return each configured
identity exactly once, in configured order; the call sequence is periodic
with period N, and the cursor stays below the list length forever. -/
theorem sender_pool_rotation :
    ((List.range sender_configs.length).map (senderAt sender_configs 0) = sender_configs)
    ∧ (∀ k, senderAt sender_configs 0 (k + sender_configs.length)
        = senderAt sender_configs 0 k)
    ∧ (∀ k, cursorIter sender_configs 0 k < sender_configs.length) := by
  have hl : sender_configs.length = 3 := rfl
  refine ⟨by decide, ?_, ?_⟩
  · intro k
    simp only [senderAt, hl, cursorIter_mod, Nat.add_mod_right]
  · intro k
    rw [cursorIter_mod, hl]
    exact Nat.mod_lt _ (by norm_num)

/- ------------------------------------------------------------------ -/
/- Claim C8                                                           -/
/- ------------------------------------------------------------------ -/

theorem find?_fresh_unique (store : List StoredRow) (email : String) (row : StoredRow)
    (cutoff : Int) (hmem : row ∈ store) (hkey : row.email = email)
    (hnodup : (store.map StoredRow.email).Nodup) :
    store.find? (fun r => r.email == email && cutoff < r.timestamp)
      = if cutoff < row.timestamp then some row else none := by
  induction store with
  | nil => simp at hmem
  | cons x xs ih =>
    rw [List.map_cons, List.nodup_cons] at hnodup
    rcases List.mem_cons.mp hmem with rfl | hmem2
    · by_cases hq : cutoff < row.timestamp
      · rw [if_pos hq]
        apply List.find?_cons_of_pos
        simp [hkey, hq]
      · rw [if_neg hq]
        rw [List.find?_cons_of_neg _ (by simp [hkey, hq])]
        apply List.find?_eq_none.mpr
        intro r hr
        simp only [Bool.and_eq_true, beq_iff_eq, decide_eq_true_eq, not_and]
        intro hre _
        have : email ∈ xs.map StoredRow.email :=
          hre ▸ List.mem_map_of_mem StoredRow.email hr
        exact absurd (hkey ▸ this) hnodup.1
    · have hxe : x.email ≠ email := by
        intro hxe
        have : row.email ∈ xs.map StoredRow.email :=
          List.mem_map_of_mem StoredRow.email hmem2
        rw [hkey, ← hxe] at this
        exact hnodup.1 this
      rw [List.find?_cons_of_neg _ (by simp [hxe])]
      exact ih hmem2 hnodup.2

/-- Claim C8: with a working cache store whose keys are unique, the cache
read returns the stored outcome for the email exactly when
`now - timestamp < ttl` (the SQL cutoff comparison), marked
`cached = true`; a fresh hit makes `verify_email` return it with no DNS
query, no probe, no cache write and an unchanged store, and an absent key
reads as `None`. -/
theorem cache_get_ttl_and_hit (env : Env) (store : List StoredRow) (email : String)
    (hread : env.read_fails = false)
    (hnodup : (store.map StoredRow.email).Nodup) :
    (∀ row, row ∈ store → row.email = email →
      (get_cached_result env.read_fails store env.now env.ttl email
          = if env.now - row.timestamp < env.ttl then some (rowToResult row) else none)
      ∧ (rowToResult row).cached = true
      ∧ (env.now - row.timestamp < env.ttl →
          verify_email env store email = (rowToResult row, ⟨[], [], []⟩, store)))
    ∧ ((∀ row ∈ store, row.email ≠ email) →
        get_cached_result env.read_fails store env.now env.ttl email = none) := by
  constructor
  · intro row hmem hkey
    have hfind := find?_fresh_unique store email row (env.now - env.ttl) hmem hkey hnodup
    have hget : get_cached_result env.read_fails store env.now env.ttl email
        = if env.now - row.timestamp < env.ttl then some (rowToResult row) else none := by
      unfold get_cached_result
      rw [hread]
      simp only [Bool.false_eq_true, if_false]
      rw [hfind]
      by_cases hfresh : env.now - row.timestamp < env.ttl
      · rw [if_pos (show env.now - env.ttl < row.timestamp by omega), if_pos hfresh]
      · rw [if_neg (show ¬ env.now - env.ttl < row.timestamp by omega), if_neg hfresh]
    refine ⟨hget, rfl, ?_⟩
    intro hfresh
    have hsome : get_cached_result env.read_fails store env.now env.ttl email
        = some (rowToResult row) := by
      rw [hget, if_pos hfresh]
    simp [verify_email, hsome]
  · intro hnone
    unfold get_cached_result
    rw [hread]
    simp only [Bool.false_eq_true, if_false]
    rw [List.find?_eq_none.mpr ?_]
    intro r hr
    simp only [Bool.and_eq_true, beq_iff_eq, not_and]
    intro hre
    exact absurd hre (hnone r hr)

/-- Witness for C8 at a one-row store holding a fresh entry. -/
theorem cache_get_ttl_and_hit_witness :
    (get_cached_result demoCacheEnv.read_fails [demoRow] demoCacheEnv.now demoCacheEnv.ttl
        "user@example.com"
      = if demoCacheEnv.now - demoRow.timestamp < demoCacheEnv.ttl
          then some (rowToResult demoRow) else none)
    ∧ (rowToResult demoRow).cached = true
    ∧ verify_email demoCacheEnv [demoRow] "user@example.com"
        = (rowToResult demoRow, ⟨[], [], []⟩, [demoRow]) := by
  have h := (cache_get_ttl_and_hit demoCacheEnv [demoRow] "user@example.com" rfl
      (by decide)).1 demoRow (by decide) rfl
  exact ⟨h.1, h.2.1, h.2.2 (by decide)⟩

/- ------------------------------------------------------------------ -/
/- Claim C9                                                           -/
/- ------------------------------------------------------------------ -/

theorem upsertRow_email_map (store : List StoredRow) (row : StoredRow) :
    (upsertRow store row).map StoredRow.email
      = if store.any (fun x => x.email == row.email)
          then store.map StoredRow.email
          else store.map StoredRow.email ++ [row.email] := by
  unfold upsertRow
  by_cases h : store.any (fun x => x.email == row.email)
  · rw [if_pos h, if_pos h, List.map_map]
    apply List.map_congr_left
    intro x hx
    simp only [Function.comp_apply]
    by_cases hxe : (x.email == row.email) = true
    · rw [if_pos hxe]
      exact (beq_iff_eq.mp hxe).symm
    · rw [if_neg hxe]
  · rw [if_neg h, if_neg h]
    simp

theorem upsertRow_nodup (store : List StoredRow) (row : StoredRow)
    (h : (store.map StoredRow.email).Nodup) :
    ((upsertRow store row).map StoredRow.email).Nodup := by
  rw [upsertRow_email_map]
  by_cases hany : store.any (fun x => x.email == row.email)
  · rw [if_pos hany]
    exact h
  · rw [if_neg hany]
    refine List.Nodup.append h (List.nodup_singleton _) ?_
    intro a ha hb
    rw [List.mem_singleton.mp hb] at ha
    obtain ⟨x, hx, hxe⟩ := List.mem_map.mp ha
    exact hany (List.any_eq_true.mpr ⟨x, hx, beq_iff_eq.mpr hxe⟩)

theorem upsertRow_mem (store : List StoredRow) (row : StoredRow) :
    row ∈ upsertRow store row := by
  unfold upsertRow
  by_cases hany : store.any (fun x => x.email == row.email)
  · rw [if_pos hany]
    obtain ⟨x, hx, hxe⟩ := List.any_eq_true.mp hany
    refine List.mem_map.mpr ⟨x, hx, ?_⟩
    rw [if_pos hxe]
  · rw [if_neg hany]
    simp

theorem upsertRow_unique (store : List StoredRow) (row r : StoredRow)
    (hr : r ∈ upsertRow store row) (hre : r.email = row.email) : r = row := by
  unfold upsertRow at hr
  by_cases hany : store.any (fun x => x.email == row.email)
  · rw [if_pos hany] at hr
    obtain ⟨x, hx, hfx⟩ := List.mem_map.mp hr
    by_cases hxe : (x.email == row.email) = true
    · rw [if_pos hxe] at hfx
      exact hfx.symm
    · rw [if_neg hxe] at hfx
      have : x.email = row.email := by rw [hfx]; exact hre
      exact absurd (beq_iff_eq.mpr this) hxe
  · rw [if_neg hany] at hr
    rcases List.mem_append.mp hr with hr2 | hr2
    · refine absurd ?_ hany
      refine List.any_eq_true.mpr ⟨r, hr2, ?_⟩
      exact beq_iff_eq.mpr hre
    · exact List.mem_singleton.mp hr2

theorem verify_email_miss_shape (env : Env) (store : List StoredRow) (email : String)
    (hmiss : get_cached_result env.read_fails store env.now env.ttl email = none)
    (hw : env.write_fails = false) :
    (verify_email env store email).1.email = email
    ∧ (verify_email env store email).2.1.cache_writes
        = [resultToRow (verify_email env store email).1]
    ∧ (verify_email env store email).2.2
        = upsertRow store (resultToRow (verify_email env store email).1) := by
  by_cases hf : is_valid_email_format email = true
  · cases hm : get_mx_records env.resolve (lowerDomain email) with
    | nil => refine ⟨?_, ?_, ?_⟩ <;> simp [verify_email, hmiss, hf, hm, cache_result, hw]
    | cons a as =>
      refine ⟨?_, ?_, ?_⟩ <;> simp [verify_email, hmiss, hf, hm, cache_result, hw]
  · simp only [Bool.not_eq_true] at hf
    refine ⟨?_, ?_, ?_⟩ <;> simp [verify_email, hmiss, hf, cache_result, hw]

/-- Claim C9: a `verify_email` call missing the cache hands exactly one
row to `cache_result`, keyed by the email as submitted; with a working
write the store becomes the upsert of that row, its keys stay unique, the
new row is present, and it is the only row for that email (the old row is
fully replaced). -/
theorem verify_writes_once_and_replaces (env : Env) (store : List StoredRow) (email : String)
    (hmiss : get_cached_result env.read_fails store env.now env.ttl email = none)
    (hw : env.write_fails = false)
    (hnodup : (store.map StoredRow.email).Nodup) :
    ((verify_email env store email).2.1.cache_writes
        = [resultToRow (verify_email env store email).1])
    ∧ (resultToRow (verify_email env store email).1).email = email
    ∧ ((verify_email env store email).2.2
        = upsertRow store (resultToRow (verify_email env store email).1))
    ∧ (((verify_email env store email).2.2).map StoredRow.email).Nodup
    ∧ resultToRow (verify_email env store email).1 ∈ (verify_email env store email).2.2
    ∧ (∀ r ∈ (verify_email env store email).2.2, r.email = email →
        r = resultToRow (verify_email env store email).1) := by
  obtain ⟨hkey, hwrites, hstore⟩ := verify_email_miss_shape env store email hmiss hw
  have hkey2 : (resultToRow (verify_email env store email).1).email = email := hkey
  refine ⟨hwrites, hkey2, hstore, ?_, ?_, ?_⟩
  · rw [hstore]
    exact upsertRow_nodup store _ hnodup
  · rw [hstore]
    exact upsertRow_mem store _
  · rw [hstore]
    intro r hr hre
    exact upsertRow_unique store _ r hr (by rw [hkey2]; exact hre)

/-- Witness for C9 on the format-failure path over an empty store. -/
theorem verify_writes_once_and_replaces_witness :
    ((verify_email noNetEnv [] "bad@@address").2.1.cache_writes
        = [resultToRow (verify_email noNetEnv [] "bad@@address").1])
    ∧ (resultToRow (verify_email noNetEnv [] "bad@@address").1).email = "bad@@address"
    ∧ ((verify_email noNetEnv [] "bad@@address").2.2
        = upsertRow [] (resultToRow (verify_email noNetEnv [] "bad@@address").1))
    ∧ (((verify_email noNetEnv [] "bad@@address").2.2).map StoredRow.email).Nodup
    ∧ resultToRow (verify_email noNetEnv [] "bad@@address").1
        ∈ (verify_email noNetEnv [] "bad@@address").2.2
    ∧ (∀ r ∈ (verify_email noNetEnv [] "bad@@address").2.2, r.email = "bad@@address" →
        r = resultToRow (verify_email noNetEnv [] "bad@@address").1) :=
  verify_writes_once_and_replaces noNetEnv [] "bad@@address" (by decide) rfl (by decide)

/- ------------------------------------------------------------------ -/
/- Claim C10                                                          -/
/- ------------------------------------------------------------------ -/

/-- Claim C10: storage failures never lose the result: a cache-read
failure behaves exactly like a run over an empty (miss-everything) cache
and verification proceeds with the same effects, and a cache-write
failure changes neither the returned outcome nor the store. -/
theorem storage_failures_degrade (env : Env) (store : List StoredRow) (email : String) :
    ((verify_email { env with read_fails := true } store email).1
      = (verify_email { env with read_fails := false } [] email).1)
    ∧ ((verify_email { env with read_fails := true } store email).2.1
      = (verify_email { env with read_fails := false } [] email).2.1)
    ∧ ((verify_email { env with write_fails := true } store email).1
      = (verify_email { env with write_fails := false } store email).1)
    ∧ ((verify_email { env with write_fails := true } store email).2.2 = store) := by
  refine ⟨?_, ?_, ?_, ?_⟩
  · by_cases hf : is_valid_email_format email = true
    · cases hm : get_mx_records env.resolve (lowerDomain email) with
      | nil => simp [verify_email, get_cached_result, hf, hm]
      | cons a as => simp [verify_email, get_cached_result, hf, hm]
    · simp only [Bool.not_eq_true] at hf
      simp [verify_email, get_cached_result, hf]
  · by_cases hf : is_valid_email_format email = true
    · cases hm : get_mx_records env.resolve (lowerDomain email) with
      | nil => simp [verify_email, get_cached_result, hf, hm]
      | cons a as => simp [verify_email, get_cached_result, hf, hm]
    · simp only [Bool.not_eq_true] at hf
      simp [verify_email, get_cached_result, hf]
  · cases hc : get_cached_result env.read_fails store env.now env.ttl email with
    | some c => simp [verify_email, hc]
    | none =>
      by_cases hf : is_valid_email_format email = true
      · cases hm : get_mx_records env.resolve (lowerDomain email) with
        | nil => simp [verify_email, hc, hf, hm]
        | cons a as => simp [verify_email, hc, hf, hm]
      · simp only [Bool.not_eq_true] at hf
        simp [verify_email, hc, hf]
  · cases hc : get_cached_result env.read_fails store env.now env.ttl email with
    | some c => simp [verify_email, hc]
    | none =>
      by_cases hf : is_valid_email_format email = true
      · cases hm : get_mx_records env.resolve (lowerDomain email) with
        | nil => simp [verify_email, hc, hf, hm, cache_result]
        | cons a as => simp [verify_email, hc, hf, hm, cache_result]
      · simp only [Bool.not_eq_true] at hf
        simp [verify_email, hc, hf, cache_result]

end EmailVerifier
